import Mathlib

/-!
Verification of the data pipeline of the CIA World Factbook dashboard
repository, a shallow embedding of src/utils/data_processor.py and
src/utils/utils.py.

Modelling conventions:
* a pandas cell of a numeric column is an element of Option Rat, with
  none standing for NaN (null); exact rationals stand for Python floats;
* a pandas Series of object dtype, after the astype(str) call that
  clean_numeric_column performs, is a List String;
* a DataFrame row is a Row (join key Country plus positional payload
  columns); a DataFrame is a List Row;
* pd.to_numeric with coerce errors is parseNumeric, a total parser that
  returns none on every unparseable string (it covers the finite decimal
  and scientific grammar; the special infinity words, which never arise
  in this pipeline, are treated as unparseable).
-/

/-- Python str.replace for a non-empty pattern: replaces every
non-overlapping occurrence, scanning left to right. The fuel argument
(instantiated with the length of the scanned list, which every step
shortens) only makes the recursion structural; with a non-empty pattern
and fuel at least that length the zero-fuel branch is unreachable. -/
def replaceGo (pat rep : List Char) : ℕ → List Char → List Char
  | _, [] => []
  | 0, s => s
  | fuel + 1, c :: rest =>
    if pat.isPrefixOf (c :: rest) then
      rep ++ replaceGo pat rep fuel ((c :: rest).drop pat.length)
    else
      c :: replaceGo pat rep fuel rest

/-- Python s.replace(pat, rep) on strings (the regex-free form used by
pandas str.replace with a plain pattern). The empty pattern never occurs
in the source, so it is mapped to the identity. -/
def pyReplace (s pat rep : String) : String :=
  if pat.isEmpty then s
  else String.mk (replaceGo pat.toList rep.toList s.toList.length s.toList)

/-- Numeric value of a digit character. -/
def digitVal (c : Char) : ℕ := c.toNat - 48

/-- Value of a digit run, most significant first. -/
def digitsToNat (ds : List Char) : ℕ := ds.foldl (fun acc c => 10 * acc + digitVal c) 0

/-- Mantissa part of the float grammar: digits, an optional dot, digits;
at least one digit overall. The value is kept as a numerator and a
positive power-of-ten denominator so that the whole parse is a kernel
computation on naturals; the pair is turned into one rational at the
very end. Returns the value pair and the unconsumed rest. -/
def parseMantissa (s : List Char) : Option ((ℕ × ℕ) × List Char) :=
  let ip := s.takeWhile Char.isDigit
  let r1 := s.dropWhile Char.isDigit
  match r1 with
  | '.' :: r2 =>
    let fp := r2.takeWhile Char.isDigit
    let r3 := r2.dropWhile Char.isDigit
    if ip.isEmpty && fp.isEmpty then none
    else some ((digitsToNat ip * 10 ^ fp.length + digitsToNat fp, 10 ^ fp.length), r3)
  | _ => if ip.isEmpty then none else some ((digitsToNat ip, 1), r1)

/-- Exponent part: empty input keeps the mantissa; otherwise an e or E,
an optional sign and a non-empty digit run must consume everything. A
positive exponent scales the numerator, a negative one the denominator. -/
def applyExp (q : ℕ × ℕ) (s : List Char) : Option (ℕ × ℕ) :=
  match s with
  | [] => some q
  | e :: r =>
    if e = 'e' ∨ e = 'E' then
      let sr : Bool × List Char :=
        match r with
        | '-' :: r2 => (true, r2)
        | '+' :: r2 => (false, r2)
        | _ => (false, r)
      let ds := sr.2.takeWhile Char.isDigit
      let rest := sr.2.dropWhile Char.isDigit
      if ds.isEmpty || !rest.isEmpty then none
      else some (if sr.1 then (q.1, q.2 * 10 ^ digitsToNat ds) else (q.1 * 10 ^ digitsToNat ds, q.2))
    else none

/-- Sign and magnitude of a parsed float literal: surrounding whitespace
is stripped, an optional sign is taken, then the mantissa and optional
scientific exponent must consume the whole string; anything else is a
parse failure. -/
def parsePre (s : List Char) : Option (Bool × ℕ × ℕ) :=
  let t := ((s.dropWhile Char.isWhitespace).reverse.dropWhile Char.isWhitespace).reverse
  let sb : Bool × List Char :=
    match t with
    | '-' :: r => (true, r)
    | '+' :: r => (false, r)
    | _ => (false, t)
  match parseMantissa sb.2 with
  | none => none
  | some (q, rest) => (applyExp q rest).map (fun v => (sb.1, v.1, v.2))

/-- The rational denoted by a sign, numerator and denominator triple. -/
def ratOfPre (p : Bool × ℕ × ℕ) : ℚ :=
  (if p.1 then -(p.2.1 : ℚ) else (p.2.1 : ℚ)) / (p.2.2 : ℚ)

/-- pd.to_numeric with coerce errors on one string cell: every
unparseable string coerces to NaN (none). -/
def parseNumeric (s : List Char) : Option ℚ :=
  (parsePre s).map ratOfPre

/-- The replacement chain of DataProcessor.clean_numeric_column, in
source order, applied to one cell of an object-dtype series. -/
def cleanCell (s : String) : String :=
  let s1 := pyReplace s "," ""
  let s2 := pyReplace s1 "%" ""
  let s3 := pyReplace s2 " sq km" ""
  let s4 := pyReplace s3 " km" ""
  let s5 := pyReplace s4 " m" ""
  let s6 := pyReplace s5 " bbl/day" ""
  let s7 := pyReplace s6 " kW" ""
  let s8 := pyReplace s7 " Mt" ""
  let s9 := pyReplace s8 "$" ""
  let s10 := pyReplace s9 "billion" "e9"
  pyReplace s10 "million" "e6"

/-- One cell of DataProcessor.clean_numeric_column on an object-dtype
series: the replacement chain followed by the coercing numeric parse. -/
def clean_numeric_cell (s : String) : Option ℚ :=
  parseNumeric (cleanCell s).toList

/-- DataProcessor.clean_numeric_column on an object-dtype series (the
branch taken for string data; on an already numeric series the function
is the identity up to NaN-preserving coercion). -/
def clean_numeric_column (series : List String) : List (Option ℚ) :=
  series.map clean_numeric_cell

/-- Python s.upper() on the ASCII country names this pipeline sees. -/
def upperS (s : String) : String := String.mk (s.toList.map Char.toUpper)

/-- The Python substring test (the in operator on strings), on lists of
characters: some contiguous run of s equals pat. -/
def isSubstr (pat : List Char) : List Char → Bool
  | [] => pat.isEmpty
  | c :: rest => pat.isPrefixOf (c :: rest) || isSubstr pat rest

/-- Python (pat in s) for strings. -/
def strIn (pat s : String) : Bool := isSubstr pat.toList s.toList

/-- The asia list of DataProcessor._classify_continent. -/
def asia_list : List String :=
  ["CHINA", "INDIA", "JAPAN", "SOUTH KOREA", "INDONESIA", "THAILAND",
   "VIETNAM", "MALAYSIA", "PHILIPPINES", "SINGAPORE", "BANGLADESH",
   "PAKISTAN", "AFGHANISTAN", "IRAN", "IRAQ", "SAUDI ARABIA", "YEMEN",
   "SYRIA", "TURKEY", "ISRAEL", "JORDAN", "LEBANON", "UAE", "KUWAIT",
   "QATAR", "BAHRAIN", "OMAN", "AZERBAIJAN", "ARMENIA", "GEORGIA",
   "KAZAKHSTAN", "UZBEKISTAN", "TURKMENISTAN", "KYRGYZSTAN", "TAJIKISTAN",
   "MONGOLIA", "MYANMAR", "BURMA", "CAMBODIA", "LAOS", "BRUNEI",
   "TIMOR-LESTE", "BHUTAN", "NEPAL", "SRI LANKA", "MALDIVES"]

/-- The europe list of DataProcessor._classify_continent. -/
def europe_list : List String :=
  ["UNITED KINGDOM", "GERMANY", "FRANCE", "ITALY", "SPAIN", "POLAND",
   "ROMANIA", "NETHERLANDS", "BELGIUM", "CZECH REPUBLIC", "GREECE",
   "PORTUGAL", "SWEDEN", "HUNGARY", "AUSTRIA", "BULGARIA", "DENMARK",
   "FINLAND", "SLOVAKIA", "NORWAY", "IRELAND", "CROATIA", "BOSNIA",
   "SERBIA", "SWITZERLAND", "ALBANIA", "LITHUANIA", "SLOVENIA",
   "LATVIA", "NORTH MACEDONIA", "ESTONIA", "LUXEMBOURG", "MALTA",
   "ICELAND", "MONTENEGRO", "BELARUS", "UKRAINE", "RUSSIA", "MOLDOVA"]

/-- The africa list of DataProcessor._classify_continent. -/
def africa_list : List String :=
  ["NIGERIA", "ETHIOPIA", "EGYPT", "CONGO", "SOUTH AFRICA", "TANZANIA",
   "KENYA", "UGANDA", "ALGERIA", "SUDAN", "MOROCCO", "ANGOLA", "GHANA",
   "MOZAMBIQUE", "MADAGASCAR", "CAMEROON", "IVORY COAST", "NIGER",
   "BURKINA FASO", "MALI", "MALAWI", "ZAMBIA", "SENEGAL", "SOMALIA",
   "CHAD", "ZIMBABWE", "GUINEA", "RWANDA", "BENIN", "BURUNDI", "TUNISIA",
   "TOGO", "SIERRA LEONE", "LIBYA", "LIBERIA", "MAURITANIA", "ERITREA",
   "GAMBIA", "BOTSWANA", "NAMIBIA", "GABON", "LESOTHO", "GUINEA-BISSAU",
   "EQUATORIAL GUINEA", "MAURITIUS", "ESWATINI", "DJIBOUTI", "COMOROS",
   "CABO VERDE", "SAO TOME", "SEYCHELLES", "CENTRAL AFRICAN REPUBLIC"]

/-- The north_america list of DataProcessor._classify_continent. -/
def north_america_list : List String :=
  ["UNITED STATES", "CANADA", "MEXICO", "GUATEMALA", "CUBA",
   "HAITI", "DOMINICAN REPUBLIC", "HONDURAS", "NICARAGUA",
   "EL SALVADOR", "COSTA RICA", "PANAMA", "JAMAICA", "TRINIDAD",
   "BELIZE", "BAHAMAS", "BARBADOS", "SAINT LUCIA", "GRENADA",
   "ANTIGUA", "DOMINICA", "SAINT KITTS"]

/-- The south_america list of DataProcessor._classify_continent. -/
def south_america_list : List String :=
  ["BRAZIL", "COLOMBIA", "ARGENTINA", "PERU", "VENEZUELA",
   "CHILE", "ECUADOR", "BOLIVIA", "PARAGUAY", "URUGUAY",
   "GUYANA", "SURINAME", "FRENCH GUIANA"]

/-- The oceania list of DataProcessor._classify_continent. -/
def oceania_list : List String :=
  ["AUSTRALIA", "PAPUA NEW GUINEA", "NEW ZEALAND", "FIJI", "SOLOMON",
   "MICRONESIA", "VANUATU", "SAMOA", "KIRIBATI", "TONGA", "PALAU",
   "TUVALU", "NAURU", "MARSHALL ISLANDS"]

/-- The ordered label and list pairs the classification loop walks. -/
def continent_lists : List (String × List String) :=
  [("Asia", asia_list), ("Europe", europe_list), ("Africa", africa_list),
   ("North America", north_america_list), ("South America", south_america_list),
   ("Oceania", oceania_list)]

/-- DataProcessor._classify_continent: the first continent, in list
order, one of whose entries occurs as a substring of the uppercased
country name; Other when none does. -/
def classify_continent (country : String) : String :=
  let u := upperS country
  match continent_lists.find? (fun p => p.2.any (fun c => strIn c u)) with
  | some p => p.1
  | none => "Other"

/-- The pd.cut call of DataProcessor.merge_datasets on one cell: bins
(0, 5000], (5000, 15000], (15000, 30000], (30000, inf) with labels Low
Income, Lower Middle, Upper Middle, High Income; values outside every
bin (including 0 and below) and NaN map to NaN. -/
def development_level (gdp : Option ℚ) : Option String :=
  match gdp with
  | none => none
  | some x =>
    if 0 < x ∧ x ≤ 5000 then some "Low Income"
    else if 5000 < x ∧ x ≤ 15000 then some "Lower Middle"
    else if 15000 < x ∧ x ≤ 30000 then some "Upper Middle"
    else if 30000 < x then some "High Income"
    else none

/-- One row of a per-topic DataFrame: the Country join key plus the
remaining cells of numeric columns in a fixed positional order. -/
structure Row where
  country : String
  vals : List (Option ℚ)
deriving DecidableEq, Repr

/-- One row of the merged DataFrame after merge_datasets has added the
two derived columns. -/
structure MergedRow where
  country : String
  vals : List (Option ℚ)
  continent : String
  devLevel : Option String
deriving DecidableEq, Repr

/-- The column count a left merge uses to fill the right side of an
unmatched row with NaN; pandas takes it from the right schema, which for
the uniform tables of this pipeline is the width of any row. -/
def tableWidth (t : List Row) : ℕ :=
  match t with
  | [] => 0
  | r :: _ => r.vals.length

/-- pandas left.merge(right, on equal Country, how left): every left row
appears once per matching right row, widened by that row's cells, and
once with NaN cells when no right row matches. -/
def leftMerge (left right : List Row) : List Row :=
  left.flatMap (fun l =>
    match right.filter (fun r => r.country == l.country) with
    | [] => [{ country := l.country, vals := l.vals ++ List.replicate (tableWidth right) none }]
    | m :: ms => (m :: ms).map (fun r => { country := l.country, vals := l.vals ++ r.vals }))

/-- The seven cleaned per-topic tables that load_all_datasets stores. -/
structure RawTables where
  geography : List Row
  demographics : List Row
  economy : List Row
  energy : List Row
  transportation : List Row
  communications : List Row
  government : List Row
deriving DecidableEq, Repr

/-- DataProcessor.merge_datasets on loaded tables: left-joins the other
six tables onto geography on Country in dict order, then appends the
Continent and Development_Level derived columns. gdpIdx is the position
of the Real_GDP_per_Capita_USD column in the merged payload. -/
def merge_tables (gdpIdx : ℕ) (ds : RawTables) : List MergedRow :=
  let m1 := leftMerge ds.geography ds.demographics
  let m2 := leftMerge m1 ds.economy
  let m3 := leftMerge m2 ds.energy
  let m4 := leftMerge m3 ds.transportation
  let m5 := leftMerge m4 ds.communications
  let m6 := leftMerge m5 ds.government
  m6.map (fun r =>
    { country := r.country, vals := r.vals,
      continent := classify_continent r.country,
      devLevel := development_level (r.vals.getD gdpIdx none) })

/-- pandas Series.min with NaN skipped: none only for an all-NaN column. -/
def colMin (xs : List (Option ℚ)) : Option ℚ := (xs.filterMap id).min?

/-- pandas Series.max with NaN skipped: none only for an all-NaN column. -/
def colMax (xs : List (Option ℚ)) : Option ℚ := (xs.filterMap id).max?

/-- pandas Series.mean with NaN skipped: sum over count of the non-null
cells, none for an all-NaN column. -/
def colMean (xs : List (Option ℚ)) : Option ℚ :=
  let v := xs.filterMap id
  if v.isEmpty then none else some (v.sum / (v.length : ℚ))

/-- Python str.title character step: a letter is uppercased after a
non-letter and lowercased after a letter; the flag carries whether the
previous character was a letter. -/
def titleGo : Bool → List Char → List Char
  | _, [] => []
  | prevAlpha, c :: r =>
    (if c.isAlpha then (if prevAlpha then c.toLower else c.toUpper) else c) :: titleGo c.isAlpha r

/-- Python s.title() for the ASCII column names this pipeline sees. -/
def pyTitle (s : String) : String := String.mk (titleGo false s.toList)

/-- One entry of the dict get_metric_info builds per available metric. -/
structure MetricEntry where
  name : String
  label : String
  min : ℚ
  max : ℚ
  mean : ℚ
deriving DecidableEq, Repr

/-- The hardcoded category to column-name dict of get_metric_info. -/
def metricCategories : List (String × List String) :=
  [("Geography", ["Area_Total", "Land_Area", "Water_Area", "Coastline",
                  "Forest_Land", "Agricultural_Land", "Irrigated_Land"]),
   ("Demographics", ["Total_Population", "Population_Growth_Rate", "Birth_Rate",
                     "Death_Rate", "Median_Age", "Infant_Mortality_Rate",
                     "Total_Literacy_Rate"]),
   ("Economy", ["Real_GDP_PPP_billion_USD", "Real_GDP_per_Capita_USD",
                "Real_GDP_Growth_Rate_percent", "Unemployment_Rate_percent",
                "Exports_billion_USD", "Imports_billion_USD"]),
   ("Energy", ["electricity_access_percent", "carbon_dioxide_emissions_Mt",
               "petroleum_bbl_per_day", "natural_gas_cubic_meters"]),
   ("Infrastructure", ["roadways_km", "railways_km", "airports_paved_runways_count",
                       "waterways_km"]),
   ("Communications", ["internet_users_total", "mobile_cellular_subscriptions_total",
                       "broadband_fixed_subscriptions_total"])]

/-- The summary entry get_metric_info appends for one present column. -/
def metricEntry (c : String) (xs : List (Option ℚ)) : MetricEntry :=
  { name := c,
    label := pyTitle (pyReplace c "_" " "),
    min := (colMin xs).getD 0,
    max := (colMax xs).getD 0,
    mean := (colMean xs).getD 0 }

/-- DataProcessor.get_metric_info on a merged table presented as its
named numeric columns: for every category, the summary entries of those
listed columns that the table has. -/
def get_metric_info (table : List (String × List (Option ℚ))) : List (String × List MetricEntry) :=
  metricCategories.map (fun p =>
    (p.1, p.2.filterMap (fun c => (table.lookup c).map (metricEntry c))))

/-- The merged table as named columns: the i-th listed column name is
paired with the i-th payload cell of every row. -/
def toNamedTable (colNames : List String) (rows : List MergedRow) : List (String × List (Option ℚ)) :=
  (List.range colNames.length).map
    (fun i => (colNames.getD i "", rows.map (fun r => r.vals.getD i none)))

/-- The mutable fields of a DataProcessor: the datasets dict (none for
the initial empty dict) and the merged_data table (none initially). -/
structure ProcState where
  datasets : Option RawTables
  merged_data : Option (List MergedRow)
deriving DecidableEq, Repr

/-- DataProcessor.load_all_datasets: reads the seven CSVs (the env
argument stands for their cleaned contents) and stores them. -/
def load_all_datasets (env : RawTables) (s : ProcState) : ProcState :=
  { s with datasets := some env }

/-- DataProcessor.merge_datasets as a state step: loads the datasets
first when the dict is still empty, merges, stores the merged table and
returns it. -/
def merge_datasets_op (gdpIdx : ℕ) (env : RawTables) (s : ProcState) : ProcState × List MergedRow :=
  let s1 := if s.datasets.isNone then load_all_datasets env s else s
  let merged := merge_tables gdpIdx (s1.datasets.getD env)
  ({ s1 with merged_data := some merged }, merged)

/-- DataProcessor.get_metric_info as a state step: merges first when
merged_data is still none, then summarizes the merged table (colNames
lists its numeric column names in payload order). -/
def get_metric_info_op (gdpIdx : ℕ) (colNames : List String) (env : RawTables) (s : ProcState) :
    ProcState × List (String × List MetricEntry) :=
  let p := if s.merged_data.isNone then merge_datasets_op gdpIdx env s else (s, s.merged_data.getD [])
  (p.1, get_metric_info (toNamedTable colNames p.2))

/-- DataProcessor.get_country_list as a state step: merges first when
merged_data is still none, then returns the sorted deduplicated Country
column. -/
def get_country_list_op (gdpIdx : ℕ) (env : RawTables) (s : ProcState) :
    ProcState × List String :=
  let p := if s.merged_data.isNone then merge_datasets_op gdpIdx env s else (s, s.merged_data.getD [])
  (p.1, ((p.2.map MergedRow.country).eraseDups).mergeSort (fun a b => a ≤ b))

/-- normalize_series of utils.py with the minmax method: the series is
rescaled by (x - min) / (max - min) * 100 with NaN kept, a constant 50
when max equals min, and all NaN when the series has no valid value (the
float comparison NaN == NaN being false, the arithmetic branch then
turns every cell into NaN). -/
def normalize_series_minmax (s : List (Option ℚ)) : List (Option ℚ) :=
  match colMin s, colMax s with
  | some mn, some mx =>
    if mx = mn then List.replicate s.length (some 50)
    else s.map (Option.map (fun x => (x - mn) / (mx - mn) * 100))
  | _, _ => s.map (fun _ => none)

/-- calculate_percentile_rank of utils.py: 0 for a null value, else 100
times the fraction of non-null column cells strictly below the value;
the 0 over 0 the code computes on an all-null column is numpy NaN. -/
def calculate_percentile_rank (col : List (Option ℚ)) (value : Option ℚ) : Option ℚ :=
  match value with
  | none => some 0
  | some v =>
    let valid := col.filterMap id
    if valid.length = 0 then none
    else some ((valid.countP (fun x => decide (x < v)) : ℚ) / (valid.length : ℚ) * 100)

/-- categorize_country of utils.py: Unknown on NaN, then strict
threshold comparisons on the dict of three thresholds (the default dict
is 5000, 15000, 30000). -/
def categorize_country (gdp : Option ℚ) (thresholds : Option (ℚ × ℚ × ℚ)) : String :=
  match gdp with
  | none => "Unknown"
  | some g =>
    let t := thresholds.getD (5000, 15000, 30000)
    if g < t.1 then "Low Income"
    else if g < t.2.1 then "Lower Middle Income"
    else if g < t.2.2 then "Upper Middle Income"
    else "High Income"

/-- The label correspondence of the C9 claim: the two middle labels of
the merge_datasets binning against those of categorize_country. -/
def labelCorr (s : String) : String :=
  if s = "Lower Middle" then "Lower Middle Income"
  else if s = "Upper Middle" then "Upper Middle Income"
  else s

/-- Evaluation helper: a cell whose cleaned text parses as the given
sign and magnitude triple. -/
theorem clean_numeric_cell_eq_of_parsePre (s : String) (p : Bool × ℕ × ℕ)
    (h : parsePre (cleanCell s).toList = some p) :
    clean_numeric_cell s = some (ratOfPre p) := by
  unfold clean_numeric_cell parseNumeric
  rw [h]
  rfl

/-- Evaluation helper: a cell whose cleaned text does not parse. -/
theorem clean_numeric_cell_none_of_parsePre (s : String)
    (h : parsePre (cleanCell s).toList = none) :
    clean_numeric_cell s = none := by
  unfold clean_numeric_cell parseNumeric
  rw [h]
  rfl

/-- C1: clean_numeric_column is total and never raises: for every input
series, every element of the result is either a float or null (NaN); no
element of the output is a non-numeric value. -/
theorem clean_numeric_column_floats_or_null (series : List String) (y : Option ℚ)
    (hy : y ∈ clean_numeric_column series) : y = none ∨ ∃ q : ℚ, y = some q := by
  cases y with
  | none => exact Or.inl rfl
  | some q => exact Or.inr ⟨q, rfl⟩

/-- Witness for C1 at the series of the repository's own unit test. -/
theorem clean_numeric_column_floats_or_null_witness :
    some (1234 : ℚ) ∈ clean_numeric_column ["1,234"] ∧
    (some (1234 : ℚ) = none ∨ ∃ q : ℚ, some (1234 : ℚ) = some q) := by
  have h : clean_numeric_cell "1,234" = some 1234 := by
    have hp : parsePre (cleanCell "1,234").toList = some (false, 1234, 1) := by decide
    rw [clean_numeric_cell_eq_of_parsePre "1,234" _ hp]
    simp [ratOfPre]
  have hm : some (1234 : ℚ) ∈ clean_numeric_column ["1,234"] := by
    unfold clean_numeric_column
    simp [h]
  exact ⟨hm, clean_numeric_column_floats_or_null ["1,234"] (some 1234) hm⟩

/-- C2 (failing input): on the space-separated unit forms the claim and
the spec promise, clean_numeric_column yields null, not the scaled
value: stripping the meter suffix space-m turns 3.5 million into
3.5illion, and 2.5 billion becomes 2.5 e9 whose inner space defeats the
numeric parse. Only the space-free forms are scaled as intended. -/
theorem clean_numeric_column_unit_suffix_bug :
    clean_numeric_column ["3.5 million", "2.5 billion", "3.5million", "2.5billion"] =
      [none, none, some 3500000, some 2500000000] := by
  have h1 : clean_numeric_cell "3.5 million" = none :=
    clean_numeric_cell_none_of_parsePre _ (by decide)
  have h2 : clean_numeric_cell "2.5 billion" = none :=
    clean_numeric_cell_none_of_parsePre _ (by decide)
  have h3 : clean_numeric_cell "3.5million" = some 3500000 := by
    rw [clean_numeric_cell_eq_of_parsePre "3.5million" (false, 35000000, 10) (by decide)]
    simp [ratOfPre]
    norm_num
  have h4 : clean_numeric_cell "2.5billion" = some 2500000000 := by
    rw [clean_numeric_cell_eq_of_parsePre "2.5billion" (false, 25000000000, 10) (by decide)]
    simp [ratOfPre]
    norm_num
  unfold clean_numeric_column
  simp [h1, h2, h3, h4]
theorem dl_low_iff (x : ℚ) : development_level (some x) = some "Low Income" ↔ 0 < x ∧ x ≤ 5000 := by
  constructor
  · intro h
    simp only [development_level] at h
    split_ifs at h with h1 h2 h3 h4 <;> simp_all
  · rintro ⟨ha, hb⟩
    simp [development_level, ha, hb]

theorem dl_lm_iff (x : ℚ) : development_level (some x) = some "Lower Middle" ↔ 5000 < x ∧ x ≤ 15000 := by
  constructor
  · intro h
    simp only [development_level] at h
    split_ifs at h with h1 h2 h3 h4 <;> simp_all
  · rintro ⟨ha, hb⟩
    have h1 : ¬(0 < x ∧ x ≤ 5000) := by rintro ⟨_, h⟩; linarith
    simp [development_level, h1, ha, hb]

theorem dl_um_iff (x : ℚ) : development_level (some x) = some "Upper Middle" ↔ 15000 < x ∧ x ≤ 30000 := by
  constructor
  · intro h
    simp only [development_level] at h
    split_ifs at h with h1 h2 h3 h4 <;> simp_all
  · rintro ⟨ha, hb⟩
    have h1 : ¬(0 < x ∧ x ≤ 5000) := by rintro ⟨_, h⟩; linarith
    have h2 : ¬(5000 < x ∧ x ≤ 15000) := by rintro ⟨_, h⟩; linarith
    simp [development_level, h1, h2, ha, hb]

theorem dl_hi_iff (x : ℚ) : development_level (some x) = some "High Income" ↔ 30000 < x := by
  constructor
  · intro h
    simp only [development_level] at h
    split_ifs at h with h1 h2 h3 h4 <;> simp_all
  · intro ha
    have h1 : ¬(0 < x ∧ x ≤ 5000) := by rintro ⟨_, h⟩; linarith
    have h2 : ¬(5000 < x ∧ x ≤ 15000) := by rintro ⟨_, h⟩; linarith
    have h3 : ¬(15000 < x ∧ x ≤ 30000) := by rintro ⟨_, h⟩; linarith
    simp [development_level, h1, h2, h3, ha]

theorem dl_none_iff (x : ℚ) : development_level (some x) = none ↔ x ≤ 0 := by
  constructor
  · intro h
    simp only [development_level] at h
    split_ifs at h with h1 h2 h3 h4
    all_goals simp_all
    by_contra hc
    push_neg at hc
    have p1 : 5000 < x := h1 hc
    have p2 : 15000 < x := h2 p1
    linarith
  · intro h
    have h1 : ¬(0 < x ∧ x ≤ 5000) := by rintro ⟨p, _⟩; linarith
    have h2 : ¬(5000 < x ∧ x ≤ 15000) := by rintro ⟨p, _⟩; linarith
    have h3 : ¬(15000 < x ∧ x ≤ 30000) := by rintro ⟨p, _⟩; linarith
    have h4 : ¬(30000 < x) := by linarith
    simp [development_level, h1, h2, h3, h4]

/-- Every row merge_datasets produces carries the Development_Level the
binning assigns to its own GDP-per-capita cell. -/
theorem merged_row_devLevel (gdpIdx : ℕ) (ds : RawTables) (row : MergedRow)
    (h : row ∈ merge_tables gdpIdx ds) :
    row.devLevel = development_level (row.vals.getD gdpIdx none) := by
  simp only [merge_tables, List.mem_map] at h
  obtain ⟨r, _, rfl⟩ := h
  rfl

/-- C4: for every row of the merged table, Development_Level is Low
Income iff GDP-per-capita lies in (0, 5000], Lower Middle iff in
(5000, 15000], Upper Middle iff in (15000, 30000], High Income iff
above 30000, and null when the GDP cell is null or not above 0. -/
theorem development_level_of_merged (gdpIdx : ℕ) (ds : RawTables) (row : MergedRow)
    (hrow : row ∈ merge_tables gdpIdx ds) :
    (row.devLevel = some "Low Income" ↔
      ∃ x, row.vals.getD gdpIdx none = some x ∧ 0 < x ∧ x ≤ 5000) ∧
    (row.devLevel = some "Lower Middle" ↔
      ∃ x, row.vals.getD gdpIdx none = some x ∧ 5000 < x ∧ x ≤ 15000) ∧
    (row.devLevel = some "Upper Middle" ↔
      ∃ x, row.vals.getD gdpIdx none = some x ∧ 15000 < x ∧ x ≤ 30000) ∧
    (row.devLevel = some "High Income" ↔
      ∃ x, row.vals.getD gdpIdx none = some x ∧ 30000 < x) ∧
    (row.devLevel = none ↔
      row.vals.getD gdpIdx none = none ∨
        ∃ x, row.vals.getD gdpIdx none = some x ∧ x ≤ 0) := by
  rw [merged_row_devLevel gdpIdx ds row hrow]
  rcases hg : row.vals.getD gdpIdx none with _ | x
  · simp [development_level]
  · simp [dl_low_iff, dl_lm_iff, dl_um_iff, dl_hi_iff, dl_none_iff]

/-- A one-country environment used by concrete witnesses. -/
def dsA : RawTables :=
  { geography := [{ country := "Atlantis", vals := [some 40000] }],
    demographics := [], economy := [], energy := [],
    transportation := [], communications := [], government := [] }

/-- The single row merging dsA produces. -/
def rowA : MergedRow :=
  { country := "Atlantis", vals := [some 40000],
    continent := "Other", devLevel := some "High Income" }

/-- Witness for C4 at a one-row merge with GDP 40000. -/
theorem development_level_of_merged_witness :
    rowA ∈ merge_tables 0 dsA ∧ rowA.vals.getD 0 none = some 40000 ∧
    rowA.devLevel = some "High Income" := by
  have hrow : rowA ∈ merge_tables 0 dsA := by decide
  refine ⟨hrow, by decide, ?_⟩
  exact ((development_level_of_merged 0 dsA rowA hrow).2.2.2.1).mpr ⟨40000, by decide, by decide⟩

/-- C9 (counterexample): at the boundary value 5000 the standalone
classifier and the merge_datasets binning disagree — the binning puts
5000 in (0, 5000] (Low Income) while categorize_country, using strict
less-than thresholds, assigns the next bracket up. -/
theorem categorize_binning_boundary_cex :
    (development_level (some 5000)).map labelCorr = some "Low Income" ∧
    categorize_country (some 5000) none = "Lower Middle Income" ∧
    (development_level (some 5000)).map labelCorr ≠
      some (categorize_country (some 5000) none) := by
  refine ⟨?_, ?_, ?_⟩ <;> decide

/-- C9 (amended): away from the boundaries — for every GDP-per-capita
value strictly above 0 and distinct from 5000, 15000 and 30000 — the
standalone classifier with default thresholds and the Development_Level
binning assign the same category under the label correspondence; at
exactly 5000, 15000 and 30000 categorize_country returns the bracket
above the one the binning returns, and for values not above 0 the
binning yields null while categorize_country yields Low Income. -/
theorem categorize_matches_binning (x : ℚ) (h0 : 0 < x)
    (h1 : x ≠ 5000) (h2 : x ≠ 15000) (h3 : x ≠ 30000) :
    (development_level (some x)).map labelCorr =
      some (categorize_country (some x) none) := by
  rcases lt_trichotomy x 5000 with ha | ha | ha
  · rw [(dl_low_iff x).mpr ⟨h0, le_of_lt ha⟩]
    simp [labelCorr, categorize_country, ha]
  · exact absurd ha h1
  · rcases lt_trichotomy x 15000 with hb | hb | hb
    · rw [(dl_lm_iff x).mpr ⟨ha, le_of_lt hb⟩]
      have hna : ¬x < 5000 := by linarith
      simp [labelCorr, categorize_country, hna, hb]
    · exact absurd hb h2
    · rcases lt_trichotomy x 30000 with hc | hc | hc
      · rw [(dl_um_iff x).mpr ⟨hb, le_of_lt hc⟩]
        have hna : ¬x < 5000 := by linarith
        have hnb : ¬x < 15000 := by linarith
        simp [labelCorr, categorize_country, hna, hnb, hc]
      · exact absurd hc h3
      · rw [(dl_hi_iff x).mpr hc]
        have hna : ¬x < 5000 := by linarith
        have hnb : ¬x < 15000 := by linarith
        have hnc : ¬x < 30000 := by linarith
        simp [labelCorr, categorize_country, hna, hnb, hnc]

/-- Witness for the amended C9 at the interior value 7000. -/
theorem categorize_matches_binning_witness :
    (development_level (some 7000)).map labelCorr =
      some (categorize_country (some 7000) none) :=
  categorize_matches_binning 7000 (by norm_num) (by norm_num) (by norm_num) (by norm_num)

/-- C10 (counterexample): on a column with no non-null entries and a
non-null value the code divides zero by zero, which is numpy NaN, not a
number in the unit range the claim promises. -/
theorem calculate_percentile_rank_empty_cex :
    calculate_percentile_rank ([] : List (Option ℚ)) (some 5) = none := by
  decide

/-- C10 (amended): calculate_percentile_rank returns 0 for a null
value; when the column has a non-null entry it returns 100 times the
fraction of non-null entries strictly below the value, a number in
[0, 100]; when the column has no non-null entries and the value is
non-null the result is NaN, not a number. -/
theorem calculate_percentile_rank_amended (col : List (Option ℚ)) (value : Option ℚ) :
    (value = none → calculate_percentile_rank col value = some 0) ∧
    (∀ v, value = some v →
      (col.filterMap id = [] → calculate_percentile_rank col value = none) ∧
      (col.filterMap id ≠ [] →
        calculate_percentile_rank col value =
          some (((col.filterMap id).countP (fun x => decide (x < v)) : ℚ) /
            ((col.filterMap id).length : ℚ) * 100) ∧
        ∀ q, calculate_percentile_rank col value = some q → 0 ≤ q ∧ q ≤ 100)) := by
  constructor
  · rintro rfl
    rfl
  · rintro v rfl
    constructor
    · intro h
      simp [calculate_percentile_rank, h]
    · intro h
      have hlen : 0 < (col.filterMap id).length := List.length_pos.mpr h
      have hne : (col.filterMap id).length ≠ 0 := Nat.pos_iff_ne_zero.mp hlen
      constructor
      · simp [calculate_percentile_rank, hne]
      · intro q hq
        simp [calculate_percentile_rank, hne] at hq
        have hc : ((col.filterMap id).countP (fun x => decide (x < v)) : ℚ) ≤
            ((col.filterMap id).length : ℚ) := by
          exact_mod_cast List.countP_le_length _
        have hnq : (0 : ℚ) < ((col.filterMap id).length : ℚ) := by exact_mod_cast hlen
        have h0q : (0 : ℚ) ≤ ((col.filterMap id).countP (fun x => decide (x < v)) : ℚ) := by
          positivity
        constructor
        · rw [← hq]
          positivity
        · rw [← hq]
          calc ((col.filterMap id).countP (fun x => decide (x < v)) : ℚ) /
                ((col.filterMap id).length : ℚ) * 100
              ≤ 1 * 100 := by
                apply mul_le_mul_of_nonneg_right _ (by norm_num)
                exact (div_le_one hnq).mpr hc
            _ = 100 := by norm_num

/-- Witness for the amended C10 on a three-cell column. -/
theorem calculate_percentile_rank_amended_witness :
    calculate_percentile_rank [some 1, none, some 3] (some 2) = some 50 ∧
    (0 : ℚ) ≤ 50 ∧ (50 : ℚ) ≤ 100 := by
  have h := ((calculate_percentile_rank_amended [some 1, none, some 3] (some 2)).2 2 rfl).2
    (by decide)
  refine ⟨?_, by norm_num, by norm_num⟩
  rw [h.1]
  have hcount : List.countP (fun x => decide (x < (2 : ℚ)))
      (List.filterMap id [some 1, none, some 3]) = 1 := by decide
  have hlen : (List.filterMap id [some (1 : ℚ), none, some 3]).length = 2 := by decide
  rw [hcount, hlen]
  norm_num

/-- A rational list minimum is a member and a lower bound. -/
theorem rat_min?_spec {l : List ℚ} {m : ℚ} (h : l.min? = some m) :
    m ∈ l ∧ ∀ x ∈ l, m ≤ x := by
  haveI : Std.Antisymm (fun x1 x2 : ℚ => x1 ≤ x2) := ⟨fun h1 h2 => le_antisymm h1 h2⟩
  exact (List.min?_eq_some_iff (fun a => le_refl a) (fun a b => min_choice a b)
    (fun _ _ _ => le_min_iff)).mp h

/-- A rational list maximum is a member and an upper bound. -/
theorem rat_max?_spec {l : List ℚ} {m : ℚ} (h : l.max? = some m) :
    m ∈ l ∧ ∀ x ∈ l, x ≤ m := by
  haveI : Std.Antisymm (fun x1 x2 : ℚ => x1 ≤ x2) := ⟨fun h1 h2 => le_antisymm h1 h2⟩
  exact (List.max?_eq_some_iff (fun a => le_refl a) (fun a b => max_choice a b)
    (fun _ _ _ => max_le_iff)).mp h

/-- C8: normalize_series with the minmax method, on a series whose max
exceeds its min, rescales every non-null value by
(x - min) / (max - min) * 100, sending the minimum to 0, the maximum to
100, every member value into [0, 100], monotonically; when max equals
min the result is the constant series 50. -/
theorem normalize_series_minmax_spec (s : List (Option ℚ)) (mn mx : ℚ)
    (hmn : colMin s = some mn) (hmx : colMax s = some mx) :
    (mn < mx →
      normalize_series_minmax s =
        s.map (Option.map (fun x => (x - mn) / (mx - mn) * 100)) ∧
      (mn - mn) / (mx - mn) * 100 = 0 ∧
      (mx - mn) / (mx - mn) * 100 = 100 ∧
      (∀ x, some x ∈ s →
        0 ≤ (x - mn) / (mx - mn) * 100 ∧ (x - mn) / (mx - mn) * 100 ≤ 100) ∧
      (∀ x y : ℚ, x ≤ y →
        (x - mn) / (mx - mn) * 100 ≤ (y - mn) / (mx - mn) * 100)) ∧
    (mx = mn → normalize_series_minmax s = List.replicate s.length (some 50)) := by
  constructor
  · intro hlt
    have hdpos : (0 : ℚ) < mx - mn := by linarith
    have hne : mx ≠ mn := ne_of_gt hlt
    refine ⟨?_, ?_, ?_, ?_, ?_⟩
    · unfold normalize_series_minmax
      rw [hmn, hmx]
      simp [hne]
    · rw [sub_self]
      simp
    · rw [div_self (ne_of_gt hdpos)]
      norm_num
    · intro x hx
      have hmem : x ∈ s.filterMap id := by
        rw [List.mem_filterMap]
        exact ⟨some x, hx, rfl⟩
      have h1 : mn ≤ x := (rat_min?_spec hmn).2 x hmem
      have h2 : x ≤ mx := (rat_max?_spec hmx).2 x hmem
      constructor
      · exact mul_nonneg (div_nonneg (by linarith) (le_of_lt hdpos)) (by norm_num)
      · calc (x - mn) / (mx - mn) * 100
            ≤ 1 * 100 := by
              apply mul_le_mul_of_nonneg_right _ (by norm_num)
              exact (div_le_one hdpos).mpr (by linarith)
          _ = 100 := one_mul 100
    · intro x y hxy
      apply mul_le_mul_of_nonneg_right _ (by norm_num : (0 : ℚ) ≤ 100)
      exact (div_le_div_iff_of_pos_right hdpos).mpr (by linarith)
  · intro he
    unfold normalize_series_minmax
    rw [hmn, hmx]
    simp [he]

/-- Witness for C8 on the series 0, 10, NaN. -/
theorem normalize_series_minmax_spec_witness :
    (0 : ℚ) < 10 ∧
    normalize_series_minmax [some 0, some 10, none] =
      [some 0, some 10, none].map (Option.map (fun x => (x - 0) / (10 - 0) * 100)) := by
  have h := (normalize_series_minmax_spec [some 0, some 10, none] 0 10
    (by decide) (by decide)).1 (by norm_num)
  exact ⟨by norm_num, h.1⟩

/-- find? returns the element when exactly one element satisfies the
predicate. -/
theorem find?_eq_of_unique {α : Type} (pred : α → Bool) (l : List α) (p : α)
    (hp : p ∈ l) (hpred : pred p = true)
    (huniq : ∀ q ∈ l, pred q = true → q = p) : l.find? pred = some p := by
  induction l with
  | nil => cases hp
  | cons a l ih =>
    by_cases ha : pred a = true
    · have hap : a = p := huniq a (List.mem_cons_self a l) ha
      rw [List.find?_cons_of_pos _ ha, hap]
    · rcases List.mem_cons.mp hp with rfl | hp2
      · exact absurd hpred ha
      · rw [List.find?_cons_of_neg _ (by simpa using ha)]
        exact ih hp2 (fun q hq hqp => huniq q (List.mem_cons_of_mem a hq) hqp)

/-- The six continent labels are distinct, so a label determines the
pair in continent_lists. -/
theorem continent_lists_names_inj :
    ∀ q ∈ continent_lists, ∀ p ∈ continent_lists, q.1 = p.1 → q = p := by decide

/-- C5 (counterexample): ROMANIA is an element of exactly the europe
list, yet the classification is Asia — matching is by substring, and
the asia entry OMAN occurs inside ROMANIA, with asia checked first. -/
theorem classify_continent_substring_cex :
    classify_continent "Romania" = "Asia" ∧
    upperS "Romania" = "ROMANIA" ∧
    "ROMANIA" ∈ europe_list ∧
    "ROMANIA" ∉ asia_list ∧ "ROMANIA" ∉ africa_list ∧
    "ROMANIA" ∉ north_america_list ∧ "ROMANIA" ∉ south_america_list ∧
    "ROMANIA" ∉ oceania_list := by
  refine ⟨?_, ?_, ?_, ?_, ?_, ?_, ?_, ?_⟩ <;> decide

/-- find? returns the element at the first index whose element
satisfies the predicate when all earlier elements fail it. -/
theorem find?_eq_of_first_match {α : Type} (pred : α → Bool) (l : List α)
    (i : ℕ) (hi : i < l.length)
    (hpred : pred (l.get ⟨i, hi⟩) = true)
    (hbefore : ∀ j, ∀ hj : j < i, pred (l.get ⟨j, Nat.lt_trans hj hi⟩) = false) :
    l.find? pred = some (l.get ⟨i, hi⟩) := by
  induction l generalizing i with
  | nil => exact absurd hi (Nat.not_lt_zero i)
  | cons a l ih =>
    cases i with
    | zero => exact List.find?_cons_of_pos _ hpred
    | succ i =>
      have ha : pred a = false := hbefore 0 (Nat.succ_pos i)
      rw [List.find?_cons_of_neg _ (by simp [ha])]
      exact ih i (Nat.lt_of_succ_lt_succ hi) hpred
        (fun j hj => hbefore (j + 1) (Nat.succ_lt_succ hj))

/-- C5 (amended): the lookup is by substring with list-order
precedence. The result is always one of the seven strings; it is the
label of the first list, in the order Asia, Europe, Africa, North
America, South America, Oceania, one of whose entries occurs inside the
uppercased name — whenever the list at position i matches and every
earlier list does not, the result is that list's continent, whether or
not later lists also match; in particular a name matched by exactly one
list (for instance a name that is an entry of that list with no other
list entry inside it) gets that continent; and when no entry of any
list occurs inside the name the result is Other. -/
theorem classify_continent_amended (country : String) :
    classify_continent country ∈
      ["Asia", "Europe", "Africa", "North America", "South America", "Oceania", "Other"] ∧
    (∀ i, ∀ hi : i < continent_lists.length,
      (continent_lists.get ⟨i, hi⟩).2.any (fun c => strIn c (upperS country)) = true →
      (∀ j, ∀ hj : j < i,
        (continent_lists.get ⟨j, Nat.lt_trans hj hi⟩).2.any
          (fun c => strIn c (upperS country)) = false) →
      classify_continent country = (continent_lists.get ⟨i, hi⟩).1) ∧
    (∀ p ∈ continent_lists, p.2.any (fun c => strIn c (upperS country)) = true →
      (∀ q ∈ continent_lists, q.1 ≠ p.1 →
        q.2.any (fun c => strIn c (upperS country)) = false) →
      classify_continent country = p.1) ∧
    ((∀ p ∈ continent_lists, p.2.any (fun c => strIn c (upperS country)) = false) →
      classify_continent country = "Other") := by
  have hceq : classify_continent country =
      match continent_lists.find? (fun p => p.2.any (fun c => strIn c (upperS country))) with
      | some p => p.1
      | none => "Other" := rfl
  refine ⟨?_, ?_, ?_, ?_⟩
  · rw [hceq]
    cases hf : continent_lists.find? (fun p => p.2.any (fun c => strIn c (upperS country))) with
    | none => simp
    | some p =>
      have hmem := List.mem_of_find?_eq_some hf
      fin_cases hmem <;> simp
  · intro i hi hpred hbefore
    rw [hceq, find?_eq_of_first_match _ _ i hi hpred hbefore]
  · intro p hp hpred huniq
    have hfind : continent_lists.find?
        (fun r => r.2.any (fun c => strIn c (upperS country))) = some p := by
      apply find?_eq_of_unique _ _ _ hp hpred
      intro q hq hqt
      by_contra hne
      have hq1 : q.1 ≠ p.1 := fun h => hne (continent_lists_names_inj q hq p hp h)
      simp [huniq q hq hq1] at hqt
    rw [hceq, hfind]
  · intro hnone
    rw [hceq, List.find?_eq_none.mpr (fun p hp => by simp [hnone p hp])]

/-- Witness for the amended C5 at a genuinely multi-matched name:
PAPUA NEW GUINEA contains the africa entry GUINEA and is itself an
oceania entry, and africa (position 2) precedes oceania, so the
first-match clause — applied with the asia and europe lists checked to
fail — forces Africa even though a later list also matches. -/
theorem classify_continent_amended_witness :
    classify_continent "Papua New Guinea" = "Africa" ∧
    oceania_list.any (fun c => strIn c (upperS "Papua New Guinea")) = true :=
  ⟨(classify_continent_amended "Papua New Guinea").2.1 2 (by decide) (by decide) (by decide),
   by decide⟩

/-- Under distinct right-table country names, filtering on one name
yields at most one row. -/
theorem filter_country_single (rs : List Row) (c : String)
    (h : (rs.map Row.country).Nodup) :
    rs.filter (fun r => r.country == c) = [] ∨
    ∃ m, rs.filter (fun r => r.country == c) = [m] := by
  induction rs with
  | nil => exact Or.inl rfl
  | cons a rs ih =>
    rw [List.map_cons, List.nodup_cons] at h
    by_cases ha : (a.country == c) = true
    · right
      refine ⟨a, ?_⟩
      have hnil : rs.filter (fun r => r.country == c) = [] := by
        rw [List.filter_eq_nil_iff]
        intro r hr hbeq
        apply h.1
        rw [List.mem_map]
        exact ⟨r, hr, by rw [eq_of_beq hbeq, eq_of_beq ha]⟩
      simp [List.filter_cons, ha, hnil]
    · have hb : (a.country == c) = false := by simpa using ha
      simpa [List.filter_cons, hb] using ih h.2

/-- A left merge keeps the left key column exactly when the right table
has distinct country names. -/
theorem leftMerge_map_country (left right : List Row)
    (h : (right.map Row.country).Nodup) :
    (leftMerge left right).map Row.country = left.map Row.country := by
  induction left with
  | nil => rfl
  | cons l ls ih =>
    have hstep : leftMerge (l :: ls) right =
        (match right.filter (fun r => r.country == l.country) with
         | [] => [{ country := l.country,
                    vals := l.vals ++ List.replicate (tableWidth right) none }]
         | m :: ms => (m :: ms).map
             (fun r => { country := l.country, vals := l.vals ++ r.vals })) ++
          leftMerge ls right := by
      simp [leftMerge, List.flatMap_cons]
    rw [hstep, List.map_append, ih]
    rcases filter_country_single right l.country h with hf | ⟨m, hf⟩
    · rw [hf]
      simp
    · rw [hf]
      simp

/-- C3: with distinct country names in every table, the merged table
has exactly the geography key column — one row per geography country,
no more and no fewer, whatever countries the other six tables hold. -/
theorem merge_datasets_one_row_per_country (gdpIdx : ℕ) (ds : RawTables)
    (hg : (ds.geography.map Row.country).Nodup)
    (hd : (ds.demographics.map Row.country).Nodup)
    (he : (ds.economy.map Row.country).Nodup)
    (hn : (ds.energy.map Row.country).Nodup)
    (ht : (ds.transportation.map Row.country).Nodup)
    (hc : (ds.communications.map Row.country).Nodup)
    (hv : (ds.government.map Row.country).Nodup) :
    (merge_tables gdpIdx ds).map MergedRow.country = ds.geography.map Row.country ∧
    ((merge_tables gdpIdx ds).map MergedRow.country).Nodup := by
  have hkeys : (merge_tables gdpIdx ds).map MergedRow.country =
      ds.geography.map Row.country := by
    unfold merge_tables
    rw [List.map_map]
    have hcomp : (MergedRow.country ∘ fun r : Row =>
        ({ country := r.country, vals := r.vals,
           continent := classify_continent r.country,
           devLevel := development_level (r.vals.getD gdpIdx none) } : MergedRow)) =
        Row.country := rfl
    rw [hcomp, leftMerge_map_country _ _ hv, leftMerge_map_country _ _ hc,
      leftMerge_map_country _ _ ht, leftMerge_map_country _ _ hn,
      leftMerge_map_country _ _ he, leftMerge_map_country _ _ hd]
  exact ⟨hkeys, hkeys ▸ hg⟩

/-- A two-country environment whose demographics table holds one
matching and one extra country. -/
def dsB : RawTables :=
  { geography := [{ country := "A", vals := [some 1] }, { country := "B", vals := [some 2] }],
    demographics := [{ country := "A", vals := [some 3] }, { country := "C", vals := [some 4] }],
    economy := [], energy := [], transportation := [],
    communications := [], government := [] }

/-- Witness for C3 on dsB. -/
theorem merge_datasets_one_row_per_country_witness :
    (merge_tables 0 dsB).map MergedRow.country = dsB.geography.map Row.country ∧
    ((merge_tables 0 dsB).map MergedRow.country).Nodup :=
  merge_datasets_one_row_per_country 0 dsB (by decide) (by decide) (by decide)
    (by decide) (by decide) (by decide) (by decide)

/-- On a column with a non-null cell the three reported statistics are
ordered: min is at most the mean, the mean at most the max. -/
theorem colStats_ordered (xs : List (Option ℚ)) (h : xs.filterMap id ≠ []) :
    (colMin xs).getD 0 ≤ (colMean xs).getD 0 ∧
    (colMean xs).getD 0 ≤ (colMax xs).getD 0 := by
  obtain ⟨mn, hmn⟩ : ∃ m, (xs.filterMap id).min? = some m := by
    cases hv : xs.filterMap id with
    | nil => exact absurd hv h
    | cons a as => exact ⟨_, rfl⟩
  obtain ⟨mx, hmx⟩ : ∃ m, (xs.filterMap id).max? = some m := by
    cases hv : xs.filterMap id with
    | nil => exact absurd hv h
    | cons a as => exact ⟨_, rfl⟩
  have hmns := rat_min?_spec hmn
  have hmxs := rat_max?_spec hmx
  have hlen : 0 < (xs.filterMap id).length := List.length_pos.mpr h
  have hlenq : (0 : ℚ) < ((xs.filterMap id).length : ℚ) := by exact_mod_cast hlen
  have hsum_le : (xs.filterMap id).sum ≤ ((xs.filterMap id).length : ℚ) * mx := by
    have := List.sum_le_card_nsmul (xs.filterMap id) mx hmxs.2
    simpa [nsmul_eq_mul] using this
  have hle_sum : ((xs.filterMap id).length : ℚ) * mn ≤ (xs.filterMap id).sum := by
    have := List.card_nsmul_le_sum (xs.filterMap id) mn hmns.2
    simpa [nsmul_eq_mul] using this
  have h1 : colMin xs = some mn := hmn
  have h2 : colMax xs = some mx := hmx
  have h3 : colMean xs =
      some ((xs.filterMap id).sum / ((xs.filterMap id).length : ℚ)) := by
    simp only [colMean]
    rw [if_neg (by simp [List.isEmpty_iff, h])]
  rw [h1, h2, h3]
  simp only [Option.getD_some]
  constructor
  · rw [le_div_iff₀ hlenq, mul_comm]
    exact hle_sum
  · rw [div_le_iff₀ hlenq, mul_comm]
    exact hsum_le

/-- C6: every metric get_metric_info lists is a column of the table it
summarizes, its reported min, max and mean are the NaN-skipping column
statistics with 0 substituted for a null statistic, and on a column
with a non-null value min is at most mean is at most max. -/
theorem get_metric_info_spec (table : List (String × List (Option ℚ)))
    (cat : String) (entries : List MetricEntry) (e : MetricEntry)
    (hce : (cat, entries) ∈ get_metric_info table) (he : e ∈ entries) :
    ∃ xs, table.lookup e.name = some xs ∧
      e.min = (colMin xs).getD 0 ∧
      e.max = (colMax xs).getD 0 ∧
      e.mean = (colMean xs).getD 0 ∧
      (xs.filterMap id ≠ [] → e.min ≤ e.mean ∧ e.mean ≤ e.max) := by
  simp only [get_metric_info, List.mem_map] at hce
  obtain ⟨p, hp, heq⟩ := hce
  have hent : entries = p.2.filterMap (fun c => (table.lookup c).map (metricEntry c)) :=
    (congrArg Prod.snd heq).symm
  rw [hent, List.mem_filterMap] at he
  obtain ⟨c, _, hsome⟩ := he
  rw [Option.map_eq_some'] at hsome
  obtain ⟨xs, hlk, hentry⟩ := hsome
  subst hentry
  refine ⟨xs, ?_, rfl, rfl, rfl, ?_⟩
  · simpa [metricEntry] using hlk
  · intro hne
    simpa [metricEntry] using colStats_ordered xs hne

/-- A one-column table used by the C6 witness. -/
def tableC : List (String × List (Option ℚ)) := [("Area_Total", [some 1, some 3, none])]

/-- Witness for C6 on tableC. -/
theorem get_metric_info_spec_witness :
    tableC.lookup (metricEntry "Area_Total" [some 1, some 3, none]).name =
      some [some 1, some 3, none] ∧
    (metricEntry "Area_Total" [some 1, some 3, none]).min ≤
      (metricEntry "Area_Total" [some 1, some 3, none]).mean ∧
    (metricEntry "Area_Total" [some 1, some 3, none]).mean ≤
      (metricEntry "Area_Total" [some 1, some 3, none]).max := by
  have htab : get_metric_info tableC =
      [("Geography", [metricEntry "Area_Total" [some 1, some 3, none]]),
       ("Demographics", []), ("Economy", []), ("Energy", []),
       ("Infrastructure", []), ("Communications", [])] := rfl
  have hce : ("Geography", [metricEntry "Area_Total" [some 1, some 3, none]]) ∈
      get_metric_info tableC := by
    rw [htab]
    exact List.mem_cons_self _ _
  obtain ⟨xs, hlk, hmin, hmax, hmean, hord⟩ := get_metric_info_spec tableC "Geography"
    [metricEntry "Area_Total" [some 1, some 3, none]]
    (metricEntry "Area_Total" [some 1, some 3, none]) hce (List.mem_singleton.mpr rfl)
  have hxs : xs = [some 1, some 3, none] := by
    have hrfl : tableC.lookup (metricEntry "Area_Total" [some 1, some 3, none]).name =
        some [some 1, some 3, none] := rfl
    exact (Option.some.inj (hrfl.symm.trans hlk)).symm
  subst hxs
  have hord2 := hord (by decide)
  exact ⟨hlk, hord2.1, hord2.2⟩

/-- C7: the pipeline is load-once, read-many — once merged_data is set,
get_metric_info and get_country_list leave every field of the processor
state exactly as it is (and so trigger no load or merge). -/
theorem load_once_read_many (gdpIdx : ℕ) (colNames : List String) (env : RawTables)
    (s : ProcState) (m : List MergedRow) (h : s.merged_data = some m) :
    (get_metric_info_op gdpIdx colNames env s).1 = s ∧
    (get_country_list_op gdpIdx env s).1 = s := by
  have hn : s.merged_data.isNone = false := by rw [h]; rfl
  constructor <;> simp [get_metric_info_op, get_country_list_op, hn]

/-- Witness for C7 at a state whose merged table is already set. -/
theorem load_once_read_many_witness :
    (get_metric_info_op 0 [] dsA ⟨none, some []⟩).1 = (⟨none, some []⟩ : ProcState) ∧
    (get_country_list_op 0 dsA ⟨none, some []⟩).1 = (⟨none, some []⟩ : ProcState) :=
  load_once_read_many 0 [] dsA ⟨none, some []⟩ [] rfl
